import Mathlib

/-!
Shallow embedding of `src/ILAMB/ModelResult.py` (class `ModelResult`).

Modelling conventions:
* Timestamps and array values are modelled as `Int` (the Python code only
  compares, counts, copies and scales them; exact integer arithmetic stands
  in for the float arithmetic, which the verified claims never exercise
  beyond ordering and multiplication).
* A numpy masked array `var` is modelled by its data list `vdata : List Int`
  together with its mask list `vmask : List Bool`; the code's test
  `var.mask.size == 1` becomes `vmask.length = 1`.
* The external collaborators are parameters: the per-file extraction
  primitive `ilamblib.ExtractPointTimeSeries` / `ExtractTimeSeries` becomes a
  function `String → String → Option Extracted` (`none` models the
  `il.VarNotInFile` exception), the glob file scan becomes a function
  `String → String → List String` from `(path, filter)` to the matching file
  names, and the conversion table `constants.convert` becomes a function
  `String → String → String → Option Int` (`none` models the `KeyError`
  caught by the bare `except:`).
* Exceptions raised by the routines are modelled with `Except ExtractError`.
-/

/-- Result of one successful call of the per-file extraction primitive:
`t, var, unit = il.ExtractPointTimeSeries(fname, vname, lat, lon)`
(ModelResult.py line 110).  `var` is a masked array, split here into its
data and its mask. -/
structure Extracted where
  t : List Int
  vdata : List Int
  vmask : List Bool
  unit : String
deriving DecidableEq

/-- One element of the `data` list built during the scan
(ModelResult.py line 114): the tuple `(t, var, vname, nt)`. -/
structure DataEntry where
  t : List Int
  vdata : List Int
  vmask : List Bool
  vname : String
  nt : Nat
deriving DecidableEq

/-- Errors raised by the extraction routines.  `varNotInModel` carries the
joined candidate-name list interpolated into the message (lines 118, 132);
`unknownUnit` carries the extracted unit and the requested unit interpolated
into the message (line 166); `indexError` models the `IndexError` a
`data.pop(i)` with an out-of-range `i` would raise (line 141);
`numpyError` models the `IndexError`/`ValueError` numpy would raise in the
assembly block (lines 143-158) if the slice bookkeeping went out of sync. -/
inductive ExtractError where
  | varNotInModel (names : String)
  | unknownUnit (have_unit : String) (want_unit : String)
  | indexError
  | numpyError
deriving DecidableEq

deriving instance DecidableEq for Except

/-- Boolean form of the inclusive window test
`(x >= initial_time) and (x <= final_time)` used throughout. -/
def windowB (t0 t1 x : Int) : Bool :=
  decide (t0 ≤ x) && decide (x ≤ t1)

/-- Line 111: `nt = ((t>=initial_time)*(t<=final_time)).sum()` — the number
of timestamps of `t` inside the inclusive window. -/
def countWindow (t0 t1 : Int) (t : List Int) : Nat :=
  (t.filter (windowB t0 t1)).length

/-- Loop state of the collection scan (lines 104-116): the `data` list, the
running total `ntimes`, and the loop variable `unit`, which is `none` while
no extraction has yet succeeded (Python would leave the name unbound). -/
structure CollectState where
  data : List DataEntry
  ntimes : Int
  unit : Option String
deriving DecidableEq

/-- Body of the inner loop over candidate names (lines 109-116): attempt the
extraction; on `VarNotInFile` continue; otherwise bind `unit`, add `nt` to
the running total, and append `(t, var, vname, nt)` to `data` unless
`nt == 0`. -/
def collectStep (t0 t1 : Int) (attempt : String → String → Option Extracted)
    (s : CollectState) (fname vname : String) : CollectState :=
  match attempt fname vname with
  | none => s
  | some e =>
    let nt := countWindow t0 t1 e.t
    if nt = 0 then
      { s with ntimes := s.ntimes + (nt : Int), unit := some e.unit }
    else
      { data := s.data ++ [⟨e.t, e.vdata, e.vmask, vname, nt⟩],
        ntimes := s.ntimes + (nt : Int),
        unit := some e.unit }

/-- The nested scan of lines 106-116: for every matching file and every
candidate name run `collectStep`.  (The local `found = False` on line 107 is
dead code and is not modelled.) -/
def collect (t0 t1 : Int) (attempt : String → String → Option Extracted)
    (files altvars : List String) : CollectState :=
  files.foldl
    (fun s fname => altvars.foldl (fun s vname => collectStep t0 t1 attempt s fname vname) s)
    ⟨[], 0, none⟩

/-- Preference filtering of lines 121-126: walk the candidate names in
priority order, gather the entries carrying that name, and stop at the first
name that produced any. -/
def thinData : List String → List DataEntry → List DataEntry
  | [], _ => []
  | v :: vs, data =>
    let m := data.filter (fun d => d.vname == v)
    if m.isEmpty then thinData vs data else m

/-- Specification-side helper: the first candidate name in priority order
for which a retained candidate exists (`none` if no name matches). -/
def firstPresentName : List String → List DataEntry → Option String
  | [], _ => none
  | v :: vs, data =>
    if (data.filter (fun d => d.vname == v)).isEmpty then firstPresentName vs data
    else some v

/-- Sum of the stored in-window counts, as recomputed on lines 129-130:
`ntimes = 0; for d in data: ntimes += d[3]`. -/
def sumNts (data : List DataEntry) : Int :=
  (data.map (fun d => (d.nt : Int))).sum

/-- Sum of the recomputed in-window counts of a list of entries. -/
def sumCw (t0 t1 : Int) (data : List DataEntry) : Int :=
  (data.map (fun d => (countWindow t0 t1 d.t : Int))).sum

/-- Insert an entry into a list already sorted by first timestamp, placing
it before the first entry whose key is not smaller — the earlier entry wins
ties, which is exactly the stable behaviour of Python `sorted`. -/
def insertByFirst (d : DataEntry) : List DataEntry → List DataEntry
  | [] => [d]
  | x :: xs => if d.t.headD 0 ≤ x.t.headD 0 then d :: x :: xs else x :: insertByFirst d xs

/-- Line 135: `data = sorted(data, key=lambda entry: entry[0][0])`.  Python
`sorted` is a stable sort by the key `entry[0][0]` (the first timestamp);
stable sorting by a key is extensionally unique, so this structural stable
insertion sort computes the same list. -/
def sortByFirst : List DataEntry → List DataEntry
  | [] => []
  | d :: ds => insertByFirst d (sortByFirst ds)

/-- Lines 136-137: `mono = [entry[0][-1] for entry in data]` followed by
`mono[:-1] > mono[1:]` — one flag per adjacent pair, set when the left
candidate's last timestamp strictly exceeds the right one's. -/
def monoFlags (data : List DataEntry) : List Bool :=
  let lasts := data.map (fun d => d.t.getLastD 0)
  (lasts.zip lasts.tail).map (fun p => decide (p.2 < p.1))

/-- `list.pop(i)`: remove and return the element at position `i`, or `none`
(Python: `IndexError`) when `i` is out of range. -/
def popAt {α : Type} : List α → Nat → Option (α × List α)
  | [], _ => none
  | x :: xs, 0 => some (x, xs)
  | x :: xs, n + 1 => (popAt xs n).map (fun p => (p.1, x :: p.2))

/-- Lines 139-142: `for i in range(mono.shape[0]): if mono[i]: data.pop(i); …`.
The flag list is walked structurally while `i` tracks the absolute loop
index; each set flag pops position `i` of the *current* (already shrunk)
list and subtracts the popped entry's recomputed in-window count. -/
def popLoopGo (t0 t1 : Int) : List Bool → Nat → List DataEntry → Int →
    Option (List DataEntry × Int)
  | [], _, data, n => some (data, n)
  | b :: bs, i, data, n =>
    if b then
      match popAt data i with
      | none => none
      | some (tmp, d2) => popLoopGo t0 t1 bs (i + 1) d2 (n - (countWindow t0 t1 tmp.t : Int))
    else popLoopGo t0 t1 bs (i + 1) data n

/-- Lines 138-142: the pop loop runs only under the guard
`if mono.sum() > 0`. -/
def overlapElim (t0 t1 : Int) (flags : List Bool) (data : List DataEntry) (n : Int) :
    Option (List DataEntry × Int) :=
  if flags.any id then popLoopGo t0 t1 flags 0 data n else some (data, n)

/-- Line 152 contribution of one entry: `t[mask]`, the in-window
timestamps. -/
def tBlock (t0 t1 : Int) (d : DataEntry) : List Int :=
  d.t.filter (windowB t0 t1)

/-- Line 153 contribution of one entry: `var.data[mask]`, the values at
in-window positions (values are co-indexed with the timestamps). -/
def vBlock (t0 t1 : Int) (d : DataEntry) : List Int :=
  ((d.t.zip d.vdata).filter (fun p => windowB t0 t1 p.1)).map (fun p => p.2)

/-- Lines 154-157 contribution of one entry: a size-one mask is broadcast
over the slice, otherwise the mask is indexed like the values. -/
def mBlock (t0 t1 : Int) (d : DataEntry) : List Bool :=
  if d.vmask.length = 1 then
    List.replicate (countWindow t0 t1 d.t) (d.vmask.headD false)
  else
    ((d.t.zip d.vmask).filter (fun p => windowB t0 t1 p.1)).map (fun p => p.2)

/-- Allocation-and-fill of a `numpy.zeros(ntimes)` output array by
consecutive slices (lines 144-158): if the concatenated blocks overrun the
allocation numpy raises (modelled as `none`); otherwise unwritten trailing
entries keep the zero fill. -/
def fillSlices {α : Type} (n : Int) (blocks : List α) (z : α) : Option (List α) :=
  if (blocks.length : Int) ≤ n then
    some (blocks ++ List.replicate (n - (blocks.length : Int)).toNat z)
  else none

/-- Assembly of lines 143-158: build `tc`, `varc`, `masc` of length `ntimes`
from the surviving entries in order.  An empty survivor list would make
`data[0]` on line 143 raise, modelled as `none`. -/
def assembleArrays (t0 t1 : Int) (n : Int) (data : List DataEntry) :
    Option (List Int × List Int × List Bool) :=
  if data.isEmpty then none
  else
    match fillSlices n (data.flatMap (tBlock t0 t1)) 0 with
    | none => none
    | some tc =>
      match fillSlices n (data.flatMap (vBlock t0 t1)) 0 with
      | none => none
      | some vc =>
        match fillSlices n (data.flatMap (mBlock t0 t1)) false with
        | none => none
        | some mc => some (tc, vc, mc)

/-- Output tuple of the extraction routines: the composite time array, the
composite value array, its mask, and the unit string. -/
abbrev ComposerOut : Type := List Int × List Int × List Bool × String

/-- Lines 100-142 of either extraction routine, up to and including the
overlap elimination: prepend the primary name, scan, check the running
total, thin to the highest-priority present name, re-check, sort by first
timestamp (Python `sorted` is a stable merge sort) and run the pop loop.
Returns the surviving entries, the final running total, and the last bound
`unit`. -/
def composerStage1 (attempt : String → String → Option Extracted)
    (files : List String) (varName : String) (alt_vars : List String)
    (t0 t1 : Int) : Except ExtractError (List DataEntry × Int × Option String) :=
  let altvars := varName :: alt_vars
  let s := collect t0 t1 attempt files altvars
  if s.ntimes = 0 then .error (.varNotInModel (String.intercalate "," altvars))
  else
    let data := thinData altvars s.data
    let ntimes := sumNts data
    if ntimes = 0 then .error (.varNotInModel (String.intercalate "," altvars))
    else
      let sorted := sortByFirst data
      match overlapElim t0 t1 (monoFlags sorted) sorted ntimes with
      | none => .error .indexError
      | some (d2, n2) => .ok (d2, n2, s.unit)

/-- Lines 160-167: if a non-empty output unit was requested, look up
`convert[variable][output_unit][unit]`; scale the values and adopt the
requested unit on success, raise `UnknownUnit` on a missing entry. -/
def unitStep (conv : String → String → String → Option Int)
    (varName output_unit unit : String) (vc : List Int) :
    Except ExtractError (List Int × String) :=
  if output_unit = "" then .ok (vc, unit)
  else
    match conv varName output_unit unit with
    | some c => .ok (vc.map (fun x => x * c), output_unit)
    | none => .error (.unknownUnit unit output_unit)

/-- The shared body of `extractPointTimeSeries` (lines 100-167) and
`extractTimeSeries` (lines 211-278); the two Python methods are
character-identical apart from the extraction primitive, abstracted here as
`attempt`. -/
def seriesComposer (attempt : String → String → Option Extracted)
    (conv : String → String → String → Option Int)
    (files : List String) (varName : String) (alt_vars : List String)
    (t0 t1 : Int) (output_unit : String) : Except ExtractError ComposerOut :=
  match composerStage1 attempt files varName alt_vars t0 t1 with
  | .error e => .error e
  | .ok (data, ntimes, uopt) =>
    match assembleArrays t0 t1 ntimes data with
    | none => .error .numpyError
    | some (tc, vc, mc) =>
      let unit := uopt.getD ""
      match unitStep conv varName output_unit unit vc with
      | .error e => .error e
      | .ok (vc2, unit2) => .ok (tc, vc2, mc, unit2)

/-- A numpy masked array of grid cells: one `(value, masked)` pair per
cell. -/
abbrev MaskedCells : Type := List (Int × Bool)

/-- Elementwise product of two masked arrays; a result cell is masked when
either factor cell is (numpy `*` on masked arrays). -/
def maMul (a b : MaskedCells) : MaskedCells :=
  (a.zip b).map (fun p => (p.1.1 * p.2.1, p.1.2 || p.2.2))

/-- Line 44: `np.ma.sum` — sum of the unmasked cells. -/
def maSum (a : MaskedCells) : Int :=
  ((a.filter (fun c => !c.2)).map (fun c => c.1)).sum

/-- Contents of an `*areacella*.nc` grid file as read on lines 30-39:
cell areas, coordinate centers, and the paired lower/upper coordinate
bounds. -/
structure AreaData where
  areacella : MaskedCells
  lat : List Int
  lon : List Int
  lat_bnds : List (Int × Int)
  lon_bnds : List (Int × Int)
deriving DecidableEq

/-- Lines 34-39: rebuild a boundary array of length `centers + 1` from the
paired bounds — all lower bounds followed by the last upper bound. -/
def buildBnds (bnds : List (Int × Int)) : List Int :=
  bnds.map (fun p => p.1) ++ [(bnds.getLastD (0, 0)).2]

/-- The attributes of a `ModelResult` facade (lines 10-24).  The grid
attributes are `Option`s: `none` is the `None` each starts as. -/
structure ModelResult where
  path : String
  color : Int × Int × Int
  filter : String
  name : String
  confrontations : List (String × Int)
  cell_areas : Option MaskedCells
  land_fraction : Option MaskedCells
  land_areas : Option MaskedCells
  land_area : Option Int
  lat : Option (List Int)
  lon : Option (List Int)
  lat_bnds : Option (List Int)
  lon_bnds : Option (List Int)
deriving DecidableEq

/-- Error raised during facade construction: line 43 computes
`self.cell_areas * self.land_fraction`, and when `self.cell_areas` is still
`None` (no cell-area file was found) Python raises a `TypeError` from
`None * <array>`. -/
inductive GridError where
  | typeError
deriving DecidableEq

/-- `_getGridInformation` (lines 27-45).  The two glob scans and file reads
are externalized: `area` is the parsed content of the first
`*areacella*.nc` match (`none` when there is no match) and `sf` the `sftlf`
variable of the first `*sftlf*.nc` match. -/
def getGridInformation (area : Option AreaData) (sf : Option MaskedCells)
    (m : ModelResult) : Except GridError ModelResult :=
  let m1 :=
    match area with
    | none => m
    | some a =>
      { m with cell_areas := some a.areacella, lat := some a.lat, lon := some a.lon,
               lat_bnds := some (buildBnds a.lat_bnds),
               lon_bnds := some (buildBnds a.lon_bnds) }
  match sf with
  | none => .ok m1
  | some s =>
    match m1.cell_areas with
    | none => .error .typeError
    | some ca =>
      let la := maMul ca s
      .ok { m1 with land_fraction := some s, land_areas := some la,
                    land_area := some (maSum la) }

/-- `ModelResult.__init__` (lines 10-25): set the configuration attributes,
null out the grid attributes, then run `_getGridInformation`. -/
def ModelResult.init (path modelname : String) (color : Int × Int × Int)
    (filt : String) (area : Option AreaData) (sf : Option MaskedCells) :
    Except GridError ModelResult :=
  getGridInformation area sf
    { path := path, color := color, filter := filt, name := modelname,
      confrontations := [],
      cell_areas := none, land_fraction := none, land_areas := none,
      land_area := none, lat := none, lon := none, lat_bnds := none,
      lon_bnds := none }

/-- `extractPointTimeSeries` (lines 54-167).  `glob` maps `(path, filter)`
to the matching file list of line 106; `extPt` is
`ilamblib.ExtractPointTimeSeries` with `none` for `VarNotInFile`. -/
def extractPointTimeSeries (glob : String → String → List String)
    (extPt : String → String → Int → Int → Option Extracted)
    (conv : String → String → String → Option Int) (m : ModelResult)
    (varName : String) (lat lon : Int) (alt_vars : List String)
    (initial_time final_time : Int) (output_unit : String) :
    Except ExtractError ComposerOut :=
  seriesComposer (fun fname vname => extPt fname vname lat lon) conv
    (glob m.path m.filter) varName alt_vars initial_time final_time output_unit

/-- `extractTimeSeries` (lines 170-278).  `extF` is
`ilamblib.ExtractTimeSeries`: it also returns the grid `lat`/`lon`, which
line 221 binds to locals and never uses again, so the body only consumes the
`Extracted` component. -/
def extractTimeSeries (glob : String → String → List String)
    (extF : String → String → Option (Extracted × Int × Int))
    (conv : String → String → String → Option Int) (m : ModelResult)
    (varName : String) (alt_vars : List String)
    (initial_time final_time : Int) (output_unit : String) :
    Except ExtractError ComposerOut :=
  seriesComposer (fun fname vname => (extF fname vname).map (fun r => r.1)) conv
    (glob m.path m.filter) varName alt_vars initial_time final_time output_unit

/-- State-passing form of `extractPointTimeSeries`: the method body contains
no assignment to any attribute of `self`, so the facade handed back is the
one passed in. -/
def extractPointTimeSeriesS (glob : String → String → List String)
    (extPt : String → String → Int → Int → Option Extracted)
    (conv : String → String → String → Option Int) (m : ModelResult)
    (varName : String) (lat lon : Int) (alt_vars : List String)
    (initial_time final_time : Int) (output_unit : String) :
    Except ExtractError ComposerOut × ModelResult :=
  (extractPointTimeSeries glob extPt conv m varName lat lon alt_vars
    initial_time final_time output_unit, m)

/-- State-passing form of `extractTimeSeries`; as above the facade is not
written to. -/
def extractTimeSeriesS (glob : String → String → List String)
    (extF : String → String → Option (Extracted × Int × Int))
    (conv : String → String → String → Option Int) (m : ModelResult)
    (varName : String) (alt_vars : List String)
    (initial_time final_time : Int) (output_unit : String) :
    Except ExtractError ComposerOut × ModelResult :=
  (extractTimeSeries glob extF conv m varName alt_vars
    initial_time final_time output_unit, m)

/-- A heap of Python string lists, addressed by allocation index, used to
model the aliasing behaviour of lines 100-101. -/
abbrev ListStore : Type := List (List String)

/-- Dereference a list reference. -/
def storeGet (s : ListStore) (r : Nat) : List String :=
  s.getD r []

/-- Allocate a fresh list, returning the new heap and the fresh
reference. -/
def storeAlloc (s : ListStore) (v : List String) : ListStore × Nat :=
  (s ++ [v], s.length)

/-- `lst.insert(0, x)` performed in place on the list behind `r`. -/
def storeInsert0 (s : ListStore) (r : Nat) (x : String) : ListStore :=
  s.set r (x :: storeGet s r)

/-- Lines 100-101: `altvars = list(alt_vars)` allocates a copy of the
caller's list, and `altvars.insert(0, variable)` prepends to that copy.
Returns the heap after both statements and the reference bound to
`altvars`. -/
def altvarsSetup (s : ListStore) (alt_vars_ref : Nat) (varName : String) :
    ListStore × Nat :=
  let a := storeAlloc s (storeGet s alt_vars_ref)
  (storeInsert0 a.1 a.2 varName, a.2)

/-- Specification-side helper for unit provenance: fold over the file/name
scan order and keep the unit of the most recent successful extraction. -/
def lastUnitSpec (attempt : String → String → Option Extracted)
    (files altvars : List String) : Option String :=
  (files.flatMap (fun f => altvars.map (fun v => (f, v)))).foldl
    (fun u p => match attempt p.1 p.2 with
                | some e => some e.unit
                | none => u)
    none

/-- Claim-side reading of the overlap-elimination step: remove exactly the
candidates whose adjacent-pair flag is set (the last candidate has no
flag). -/
def claimOverlapSurvivors : List Bool → List DataEntry → List DataEntry
  | _, [] => []
  | [], ds => ds
  | b :: bs, d :: ds =>
    if b then claimOverlapSurvivors bs ds else d :: claimOverlapSurvivors bs ds

/-- Scenario extractor for the two-candidate example of the spec: one file
provides `temperature` readings at days `[0,10,20]`, a second at
`[15,25,35]`. -/
def exTwoFiles : String → String → Option Extracted := fun fname vname =>
  if fname = "f1" && vname = "temperature" then
    some ⟨[0, 10, 20], [1, 2, 3], [false], "K"⟩
  else if fname = "f2" && vname = "temperature" then
    some ⟨[15, 25, 35], [4, 5, 6], [false], "K"⟩
  else none

/-- Scenario extractor with three candidates whose last timestamps strictly
decrease after the sort by first timestamp: `[0,30]`, `[1,20]`, `[2,10]` —
two adjacent boundary violations. -/
def exThreeOverlap : String → String → Option Extracted := fun fname vname =>
  if fname = "fa" && vname = "v" then some ⟨[0, 30], [1, 2], [false], "u"⟩
  else if fname = "fb" && vname = "v" then some ⟨[1, 20], [3, 4], [false], "u"⟩
  else if fname = "fc" && vname = "v" then some ⟨[2, 10], [5, 6], [false], "u"⟩
  else none

/-- Conversion table that registers nothing. -/
def convNone : String → String → String → Option Int := fun _ _ _ => none

/-- Invariant of the collection scan: every retained entry stores its own
in-window count, is nonempty in the window, and carries a scanned candidate
name; the running total equals the sum of the stored counts; and a nonzero
total means some extraction succeeded, so `unit` is bound. -/
def CollectInv (t0 t1 : Int) (altvars : List String) (s : CollectState) : Prop :=
  (∀ d ∈ s.data, d.nt = countWindow t0 t1 d.t ∧ 0 < d.nt ∧ d.vname ∈ altvars) ∧
  s.ntimes = sumNts s.data ∧
  (s.ntimes ≠ 0 → s.unit.isSome)

/-- One accumulator step of the unit-provenance fold. -/
def unitUpd (attempt : String → String → Option Extracted) (u : Option String)
    (p : String × String) : Option String :=
  match attempt p.1 p.2 with
  | some e => some e.unit
  | none => u

/-- The three-candidate list as it stands after the sort by first timestamp
in the double-violation overlap scenario: last timestamps 30, 20, 10 are
strictly decreasing, so both adjacent-pair flags are set. -/
def overlapSorted : List DataEntry :=
  [⟨[0, 30], [1, 2], [false], "v", 2⟩,
   ⟨[1, 20], [3, 4], [false], "v", 2⟩,
   ⟨[2, 10], [5, 6], [false], "v", 2⟩]

/-- Scenario extractor for unit provenance: file `f1` holds the primary `P`
with in-window data in unit `uP`; file `f2` holds only the alternate `A`,
whose single timestamp lies outside the window, in unit `uA`. -/
def exUnitProv : String → String → Option Extracted := fun fname vname =>
  if fname = "f1" && vname = "P" then some ⟨[0, 10], [1, 2], [false], "uP"⟩
  else if fname = "f2" && vname = "A" then some ⟨[200], [9], [false], "uA"⟩
  else none

/-- Scenario extractor for unit conversion: one file holds `pr` in
`kg m-2 s-1`. -/
def exConvKg : String → String → Option Extracted := fun fname vname =>
  if fname = "g1" && vname = "pr" then some ⟨[0, 1], [5, 7], [false], "kg m-2 s-1"⟩
  else none

/-- Conversion table registering exactly the factor 86400 for
`convert["pr"]["mm/day"]["kg m-2 s-1"]`. -/
def conv86400 : String → String → String → Option Int := fun v w u =>
  if v = "pr" && w = "mm/day" && u = "kg m-2 s-1" then some 86400 else none

/-- The candidate list the two-file scenario retains after collection. -/
def c2Data : List DataEntry :=
  [⟨[0, 10, 20], [1, 2, 3], [false], "temperature", 3⟩,
   ⟨[15, 25, 35], [4, 5, 6], [false], "temperature", 3⟩]

/-- A concrete facade with no grid data. -/
def mW : ModelResult :=
  { path := "p", color := (0, 0, 0), filter := "", name := "m", confrontations := [],
    cell_areas := none, land_fraction := none, land_areas := none, land_area := none,
    lat := none, lon := none, lat_bnds := none, lon_bnds := none }

/-- A concrete glob oracle returning the two scenario files. -/
def globW : String → String → List String := fun _ _ => ["f1", "f2"]

/-- The two-file scenario as a point extractor (latitude and longitude are
ignored by the scenario data). -/
def extPtW : String → String → Int → Int → Option Extracted := fun f v _ _ => exTwoFiles f v

/-- The two-file scenario as a field extractor, returning dummy grid
coordinates alongside the same extracted data. -/
def extFW : String → String → Option (Extracted × Int × Int) := fun f v =>
  (exTwoFiles f v).map (fun e => (e, 0, 0))

/-- A property preserved by every step of a left fold holds of the result. -/
theorem foldl_preserves {σ α : Type} (P : σ → Prop) (f : σ → α → σ) :
    ∀ (l : List α) (s : σ), (∀ s a, a ∈ l → P s → P (f s a)) → P s → P (l.foldl f s) := by
  intro l
  induction l with
  | nil => intro s _ hs; exact hs
  | cons a l ih =>
    intro s h hs
    exact ih (f s a) (fun s b hb => h s b (List.mem_cons_of_mem a hb))
      (h s a (List.mem_cons_self a l) hs)

theorem sumNts_append (l1 l2 : List DataEntry) :
    sumNts (l1 ++ l2) = sumNts l1 + sumNts l2 := by
  unfold sumNts
  simp

theorem sumNts_nonneg (l : List DataEntry) : 0 ≤ sumNts l := by
  unfold sumNts
  apply List.sum_nonneg
  intro x hx
  simp only [List.mem_map] at hx
  obtain ⟨d, _, rfl⟩ := hx
  exact Int.natCast_nonneg _

theorem collectStep_inv (t0 t1 : Int) (attempt : String → String → Option Extracted)
    (altvars : List String) (s : CollectState) (fname vname : String)
    (hv : vname ∈ altvars) (h : CollectInv t0 t1 altvars s) :
    CollectInv t0 t1 altvars (collectStep t0 t1 attempt s fname vname) := by
  obtain ⟨h1, h2, h3⟩ := h
  unfold collectStep
  cases hatt : attempt fname vname with
  | none => exact ⟨h1, h2, h3⟩
  | some e =>
    dsimp only
    by_cases hnt : countWindow t0 t1 e.t = 0
    · rw [if_pos hnt]
      exact ⟨h1, by simpa [hnt] using h2, fun _ => rfl⟩
    · rw [if_neg hnt]
      refine ⟨?_, ?_, fun _ => rfl⟩
      · intro d hd
        rcases List.mem_append.1 hd with hd | hd
        · exact h1 d hd
        · have hd' : d = ⟨e.t, e.vdata, e.vmask, vname, countWindow t0 t1 e.t⟩ := by
            simpa using hd
          subst hd'
          exact ⟨rfl, Nat.pos_of_ne_zero hnt, hv⟩
      · rw [sumNts_append, h2]
        simp [sumNts]

theorem collect_inv (t0 t1 : Int) (attempt : String → String → Option Extracted)
    (files altvars : List String) :
    CollectInv t0 t1 altvars (collect t0 t1 attempt files altvars) := by
  unfold collect
  apply foldl_preserves
  · intro s fname _ hs
    apply foldl_preserves
    · intro s vname hv hs
      exact collectStep_inv t0 t1 attempt altvars s fname vname hv hs
    · exact hs
  · refine ⟨by simp, by simp [sumNts], by simp⟩

theorem thinData_eq (avs : List String) (data : List DataEntry) :
    thinData avs data =
      match firstPresentName avs data with
      | none => []
      | some n => data.filter (fun d => d.vname == n) := by
  induction avs with
  | nil => rfl
  | cons v vs ih =>
    show (if (data.filter (fun d => d.vname == v)).isEmpty then thinData vs data
          else data.filter (fun d => d.vname == v)) = _
    unfold firstPresentName
    by_cases h : (data.filter (fun d => d.vname == v)).isEmpty
    · simp only [if_pos h, ih]
    · simp only [if_neg h]

theorem firstPresentName_filter_ne_nil (avs : List String) (data : List DataEntry)
    (n : String) (h : firstPresentName avs data = some n) :
    data.filter (fun d => d.vname == n) ≠ [] := by
  induction avs with
  | nil => simp [firstPresentName] at h
  | cons v vs ih =>
    unfold firstPresentName at h
    by_cases he : (data.filter (fun d => d.vname == v)).isEmpty
    · rw [if_pos he] at h
      exact ih h
    · rw [if_neg he] at h
      injection h with h
      subst h
      simpa [List.isEmpty_iff] using he

theorem firstPresentName_isSome (avs : List String) (data : List DataEntry)
    (d : DataEntry) (hd : d ∈ data) (hv : d.vname ∈ avs) :
    ∃ n, firstPresentName avs data = some n := by
  induction avs with
  | nil => simp at hv
  | cons v vs ih =>
    unfold firstPresentName
    by_cases he : (data.filter (fun x => x.vname == v)).isEmpty
    · rcases List.mem_cons.1 hv with hv | hv
      · exfalso
        have hmem : d ∈ data.filter (fun x => x.vname == v) :=
          List.mem_filter.2 ⟨hd, by simp [hv]⟩
        rw [List.isEmpty_iff] at he
        rw [he] at hmem
        simp at hmem
      · simpa [he] using ih hv
    · exact ⟨v, by simp [he]⟩

theorem firstPresentName_primary (avs : List String) (data : List DataEntry)
    (v : String) (h : data.filter (fun d => d.vname == v) ≠ []) :
    firstPresentName (v :: avs) data = some v := by
  unfold firstPresentName
  rw [if_neg (by simpa [List.isEmpty_iff] using h)]

theorem mem_thinData (avs : List String) (data : List DataEntry) (d : DataEntry)
    (hd : d ∈ thinData avs data) : d ∈ data := by
  rw [thinData_eq] at hd
  cases h : firstPresentName avs data with
  | none => rw [h] at hd; simp at hd
  | some n =>
    rw [h] at hd
    exact (List.mem_filter.1 hd).1

theorem vname_of_mem_thinData (avs : List String) (data : List DataEntry)
    (n : String) (d : DataEntry) (h : firstPresentName avs data = some n)
    (hd : d ∈ thinData avs data) : d.vname = n := by
  rw [thinData_eq, h] at hd
  simpa using (List.mem_filter.1 hd).2

theorem thinData_ne_nil (avs : List String) (data : List DataEntry) (n : String)
    (h : firstPresentName avs data = some n) : thinData avs data ≠ [] := by
  rw [thinData_eq, h]
  exact firstPresentName_filter_ne_nil avs data n h

theorem sumNts_pos (l : List DataEntry) (h : ∀ d ∈ l, 0 < d.nt) (hne : l ≠ []) :
    0 < sumNts l := by
  cases l with
  | nil => exact absurd rfl hne
  | cons d ds =>
    have h1 : 0 < d.nt := h d (by simp)
    have h2 : 0 ≤ sumNts ds := sumNts_nonneg ds
    have h3 : sumNts (d :: ds) = (d.nt : Int) + sumNts ds := by simp [sumNts]
    have h4 : (0 : Int) < (d.nt : Int) := by exact_mod_cast h1
    omega

theorem popAt_mem {α : Type} : ∀ (l : List α) (i : Nat) (x : α) (l2 : List α),
    popAt l i = some (x, l2) → x ∈ l ∧ ∀ y ∈ l2, y ∈ l := by
  intro l
  induction l with
  | nil => intro i x l2 h; simp [popAt] at h
  | cons a as ih =>
    intro i x l2 h
    cases i with
    | zero =>
      simp only [popAt, Option.some.injEq, Prod.mk.injEq] at h
      obtain ⟨rfl, rfl⟩ := h
      exact ⟨by simp, fun y hy => by simp [hy]⟩
    | succ n =>
      simp only [popAt] at h
      cases hp : popAt as n with
      | none => rw [hp] at h; simp at h
      | some p =>
        rw [hp] at h
        simp only [Option.map_some', Option.some.injEq, Prod.mk.injEq] at h
        obtain ⟨rfl, rfl⟩ := h
        obtain ⟨hx, hl⟩ := ih n p.1 p.2 (by rw [hp])
        refine ⟨by simp [hx], ?_⟩
        intro y hy
        rcases List.mem_cons.1 hy with rfl | hy
        · simp
        · simp [hl y hy]

theorem popAt_map_sum {α : Type} (f : α → Int) : ∀ (l : List α) (i : Nat) (x : α)
    (l2 : List α), popAt l i = some (x, l2) → (l.map f).sum = f x + (l2.map f).sum := by
  intro l
  induction l with
  | nil => intro i x l2 h; simp [popAt] at h
  | cons a as ih =>
    intro i x l2 h
    cases i with
    | zero =>
      simp only [popAt, Option.some.injEq, Prod.mk.injEq] at h
      obtain ⟨rfl, rfl⟩ := h
      simp
    | succ n =>
      simp only [popAt] at h
      cases hp : popAt as n with
      | none => rw [hp] at h; simp at h
      | some p =>
        rw [hp] at h
        simp only [Option.map_some', Option.some.injEq, Prod.mk.injEq] at h
        obtain ⟨rfl, rfl⟩ := h
        have := ih n p.1 p.2 (by rw [hp])
        simp only [List.map_cons, List.sum_cons, this]
        ring

theorem popLoopGo_sum (t0 t1 : Int) : ∀ (bs : List Bool) (i : Nat)
    (data : List DataEntry) (n : Int) (d2 : List DataEntry) (n2 : Int),
    popLoopGo t0 t1 bs i data n = some (d2, n2) →
    n2 - sumCw t0 t1 d2 = n - sumCw t0 t1 data := by
  intro bs
  induction bs with
  | nil =>
    intro i data n d2 n2 h
    simp only [popLoopGo, Option.some.injEq, Prod.mk.injEq] at h
    obtain ⟨rfl, rfl⟩ := h
    ring
  | cons b bs ih =>
    intro i data n d2 n2 h
    cases b with
    | false =>
      simp only [popLoopGo, if_neg] at h
      exact ih (i + 1) data n d2 n2 (by simpa using h)
    | true =>
      simp only [popLoopGo, if_pos] at h
      cases hp : popAt data i with
      | none => rw [hp] at h; simp at h
      | some p =>
        rw [hp] at h
        have hsum := popAt_map_sum (fun d => (countWindow t0 t1 d.t : Int)) data i p.1 p.2 hp
        have hrec := ih (i + 1) p.2 (n - (countWindow t0 t1 p.1.t : Int)) d2 n2 h
        unfold sumCw at hsum hrec ⊢
        dsimp only at hsum
        omega

theorem popLoopGo_mem (t0 t1 : Int) : ∀ (bs : List Bool) (i : Nat)
    (data : List DataEntry) (n : Int) (d2 : List DataEntry) (n2 : Int),
    popLoopGo t0 t1 bs i data n = some (d2, n2) → ∀ y ∈ d2, y ∈ data := by
  intro bs
  induction bs with
  | nil =>
    intro i data n d2 n2 h
    simp only [popLoopGo, Option.some.injEq, Prod.mk.injEq] at h
    obtain ⟨rfl, rfl⟩ := h
    exact fun y hy => hy
  | cons b bs ih =>
    intro i data n d2 n2 h
    cases b with
    | false =>
      simp only [popLoopGo, if_neg] at h
      exact ih (i + 1) data n d2 n2 (by simpa using h)
    | true =>
      simp only [popLoopGo, if_pos] at h
      cases hp : popAt data i with
      | none => rw [hp] at h; simp at h
      | some p =>
        rw [hp] at h
        intro y hy
        exact (popAt_mem data i p.1 p.2 hp).2 y (ih (i + 1) p.2 _ d2 n2 h y hy)

theorem overlapElim_sum (t0 t1 : Int) (flags : List Bool) (data : List DataEntry)
    (n : Int) (d2 : List DataEntry) (n2 : Int)
    (h : overlapElim t0 t1 flags data n = some (d2, n2)) :
    n2 - sumCw t0 t1 d2 = n - sumCw t0 t1 data := by
  unfold overlapElim at h
  by_cases hg : flags.any id
  · rw [if_pos hg] at h
    exact popLoopGo_sum t0 t1 flags 0 data n d2 n2 h
  · rw [if_neg hg] at h
    simp only [Option.some.injEq, Prod.mk.injEq] at h
    obtain ⟨rfl, rfl⟩ := h
    ring

theorem overlapElim_mem (t0 t1 : Int) (flags : List Bool) (data : List DataEntry)
    (n : Int) (d2 : List DataEntry) (n2 : Int)
    (h : overlapElim t0 t1 flags data n = some (d2, n2)) : ∀ y ∈ d2, y ∈ data := by
  unfold overlapElim at h
  by_cases hg : flags.any id
  · rw [if_pos hg] at h
    exact popLoopGo_mem t0 t1 flags 0 data n d2 n2 h
  · rw [if_neg hg] at h
    simp only [Option.some.injEq, Prod.mk.injEq] at h
    obtain ⟨rfl, rfl⟩ := h
    exact fun y hy => hy

theorem sumNts_eq_sumCw (t0 t1 : Int) (l : List DataEntry)
    (h : ∀ d ∈ l, d.nt = countWindow t0 t1 d.t) : sumNts l = sumCw t0 t1 l := by
  unfold sumNts sumCw
  congr 1
  exact List.map_congr_left (fun d hd => by rw [h d hd])

theorem sumCw_perm (t0 t1 : Int) (l1 l2 : List DataEntry) (h : l1.Perm l2) :
    sumCw t0 t1 l1 = sumCw t0 t1 l2 := by
  unfold sumCw
  exact (h.map (fun d => (countWindow t0 t1 d.t : Int))).sum_eq

theorem insertByFirst_perm (d : DataEntry) (l : List DataEntry) :
    (insertByFirst d l).Perm (d :: l) := by
  induction l with
  | nil => exact List.Perm.refl _
  | cons x xs ih =>
    unfold insertByFirst
    by_cases h : d.t.headD 0 ≤ x.t.headD 0
    · rw [if_pos h]
    · rw [if_neg h]
      exact (ih.cons x).trans (List.Perm.swap d x xs)

theorem sortByFirst_perm (l : List DataEntry) : (sortByFirst l).Perm l := by
  induction l with
  | nil => exact List.Perm.refl _
  | cons d ds ih =>
    exact (insertByFirst_perm d (sortByFirst ds)).trans (ih.cons d)

theorem secondCheck_pos (attempt : String → String → Option Extracted)
    (files : List String) (vn : String) (avs : List String) (t0 t1 : Int)
    (h0 : (collect t0 t1 attempt files (vn :: avs)).ntimes ≠ 0) :
    sumNts (thinData (vn :: avs) (collect t0 t1 attempt files (vn :: avs)).data) ≠ 0 := by
  obtain ⟨hent, hsum, _⟩ := collect_inv t0 t1 attempt files (vn :: avs)
  have hdne : (collect t0 t1 attempt files (vn :: avs)).data ≠ [] := by
    intro hnil
    apply h0
    rw [hsum, hnil]
    rfl
  obtain ⟨d0, hd0⟩ := List.exists_mem_of_ne_nil _ hdne
  obtain ⟨n, hn⟩ :=
    firstPresentName_isSome (vn :: avs) _ d0 hd0 (hent d0 hd0).2.2
  have hpos : 0 < sumNts (thinData (vn :: avs) (collect t0 t1 attempt files (vn :: avs)).data) := by
    apply sumNts_pos
    · intro d hd
      exact (hent d (mem_thinData _ _ _ hd)).2.1
    · exact thinData_ne_nil _ _ n hn
  omega

theorem composerStage1_ok (attempt : String → String → Option Extracted)
    (files : List String) (vn : String) (avs : List String) (t0 t1 : Int)
    (data : List DataEntry) (n : Int) (uopt : Option String)
    (h : composerStage1 attempt files vn avs t0 t1 = .ok (data, n, uopt)) :
    (∀ d ∈ data, d ∈ thinData (vn :: avs) (collect t0 t1 attempt files (vn :: avs)).data) ∧
    n = sumCw t0 t1 data ∧
    uopt = (collect t0 t1 attempt files (vn :: avs)).unit ∧
    uopt.isSome := by
  obtain ⟨hent, hsum, hunit⟩ := collect_inv t0 t1 attempt files (vn :: avs)
  simp only [composerStage1] at h
  by_cases h0 : (collect t0 t1 attempt files (vn :: avs)).ntimes = 0
  · rw [if_pos h0] at h
    exact absurd h (by simp)
  rw [if_neg h0] at h
  by_cases h1 : sumNts (thinData (vn :: avs) (collect t0 t1 attempt files (vn :: avs)).data) = 0
  · rw [if_pos h1] at h
    exact absurd h (by simp)
  rw [if_neg h1] at h
  cases hov : overlapElim t0 t1
      (monoFlags (sortByFirst (thinData (vn :: avs) (collect t0 t1 attempt files (vn :: avs)).data)))
      (sortByFirst (thinData (vn :: avs) (collect t0 t1 attempt files (vn :: avs)).data))
      (sumNts (thinData (vn :: avs) (collect t0 t1 attempt files (vn :: avs)).data)) with
  | none =>
    rw [hov] at h
    exact absurd h (by simp)
  | some p =>
    obtain ⟨d2, n2⟩ := p
    rw [hov] at h
    simp only [Except.ok.injEq, Prod.mk.injEq] at h
    obtain ⟨rfl, rfl, rfl⟩ := h
    have hperm : (sortByFirst (thinData (vn :: avs) (collect t0 t1 attempt files (vn :: avs)).data)).Perm
        (thinData (vn :: avs) (collect t0 t1 attempt files (vn :: avs)).data) :=
      sortByFirst_perm _
    refine ⟨?_, ?_, rfl, hunit h0⟩
    · intro d hd
      exact hperm.mem_iff.1 (overlapElim_mem _ _ _ _ _ _ _ hov d hd)
    · have hsrt := overlapElim_sum _ _ _ _ _ _ _ hov
      have hcw : sumNts (thinData (vn :: avs) (collect t0 t1 attempt files (vn :: avs)).data) =
          sumCw t0 t1 (thinData (vn :: avs) (collect t0 t1 attempt files (vn :: avs)).data) := by
        apply sumNts_eq_sumCw
        intro d hd
        exact (hent d (mem_thinData _ _ _ hd)).1
      have hpw := sumCw_perm t0 t1 _ _ hperm
      omega

theorem composerStage1_vnim (attempt : String → String → Option Extracted)
    (files : List String) (vn : String) (avs : List String) (t0 t1 : Int) :
    (∃ msg, composerStage1 attempt files vn avs t0 t1 = .error (.varNotInModel msg)) ↔
    (collect t0 t1 attempt files (vn :: avs)).ntimes = 0 := by
  constructor
  · rintro ⟨msg, h⟩
    by_contra h0
    simp only [composerStage1] at h
    rw [if_neg h0, if_neg (secondCheck_pos attempt files vn avs t0 t1 h0)] at h
    cases hov : overlapElim t0 t1
        (monoFlags (sortByFirst (thinData (vn :: avs) (collect t0 t1 attempt files (vn :: avs)).data)))
        (sortByFirst (thinData (vn :: avs) (collect t0 t1 attempt files (vn :: avs)).data))
        (sumNts (thinData (vn :: avs) (collect t0 t1 attempt files (vn :: avs)).data)) with
    | none => rw [hov] at h; simp at h
    | some p => obtain ⟨d2, n2⟩ := p; rw [hov] at h; simp at h
  · intro h0
    refine ⟨String.intercalate "," (vn :: avs), ?_⟩
    simp only [composerStage1]
    rw [if_pos h0]

theorem length_tBlocks (t0 t1 : Int) (data : List DataEntry) :
    ((data.flatMap (tBlock t0 t1)).length : Int) = sumCw t0 t1 data := by
  rw [List.flatMap_def, List.length_flatten, List.map_map, Nat.cast_list_sum, List.map_map]
  unfold sumCw
  apply congrArg
  apply List.map_congr_left
  intro d _
  rfl

theorem mem_tBlocks_window (t0 t1 : Int) (data : List DataEntry) (x : Int)
    (hx : x ∈ data.flatMap (tBlock t0 t1)) : t0 ≤ x ∧ x ≤ t1 := by
  rw [List.mem_flatMap] at hx
  obtain ⟨d, _, hxd⟩ := hx
  have h2 := (List.mem_filter.1 hxd).2
  unfold windowB at h2
  simp only [Bool.and_eq_true, decide_eq_true_eq] at h2
  exact h2

theorem fillSlices_exact {α : Type} (n : Int) (blocks : List α) (z : α)
    (h : (blocks.length : Int) = n) : fillSlices n blocks z = some blocks := by
  unfold fillSlices
  rw [if_pos (le_of_eq h), ← h]
  simp

theorem seriesComposer_ok_elim (attempt : String → String → Option Extracted)
    (conv : String → String → String → Option Int) (files : List String)
    (vn : String) (avs : List String) (t0 t1 : Int) (w : String)
    (out : ComposerOut)
    (h : seriesComposer attempt conv files vn avs t0 t1 w = .ok out) :
    ∃ data n uopt tc vc mc vc2 u2,
      composerStage1 attempt files vn avs t0 t1 = .ok (data, n, uopt) ∧
      assembleArrays t0 t1 n data = some (tc, vc, mc) ∧
      unitStep conv vn w (uopt.getD "") vc = .ok (vc2, u2) ∧
      out = (tc, vc2, mc, u2) := by
  simp only [seriesComposer] at h
  cases hst : composerStage1 attempt files vn avs t0 t1 with
  | error e => rw [hst] at h; simp at h
  | ok trip =>
    obtain ⟨data, n, uopt⟩ := trip
    rw [hst] at h
    dsimp only at h
    cases ha : assembleArrays t0 t1 n data with
    | none => rw [ha] at h; simp at h
    | some o =>
      obtain ⟨tc, vc, mc⟩ := o
      rw [ha] at h
      dsimp only at h
      cases hu : unitStep conv vn w (uopt.getD "") vc with
      | error e => rw [hu] at h; simp at h
      | ok r =>
        obtain ⟨vc2, u2⟩ := r
        rw [hu] at h
        simp only [Except.ok.injEq] at h
        exact ⟨data, n, uopt, tc, vc, mc, vc2, u2, rfl, ha, hu, h.symm⟩

theorem seriesComposer_build (attempt : String → String → Option Extracted)
    (conv : String → String → String → Option Int) (files : List String)
    (vn : String) (avs : List String) (t0 t1 : Int) (w : String)
    (data : List DataEntry) (n : Int) (uopt : Option String)
    (tc vc : List Int) (mc : List Bool)
    (hst : composerStage1 attempt files vn avs t0 t1 = .ok (data, n, uopt))
    (ha : assembleArrays t0 t1 n data = some (tc, vc, mc)) :
    seriesComposer attempt conv files vn avs t0 t1 w =
      match unitStep conv vn w (uopt.getD "") vc with
      | .error e => .error e
      | .ok (vc2, u2) => .ok (tc, vc2, mc, u2) := by
  simp only [seriesComposer]
  rw [hst]
  dsimp only
  rw [ha]

theorem unitStep_empty (conv : String → String → String → Option Int)
    (vn u : String) (vc : List Int) : unitStep conv vn "" u vc = .ok (vc, u) := by
  unfold unitStep
  simp

theorem unitStep_some (conv : String → String → String → Option Int)
    (vn w u : String) (vc : List Int) (c : Int) (hw : w ≠ "")
    (hc : conv vn w u = some c) :
    unitStep conv vn w u vc = .ok (vc.map (fun x => x * c), w) := by
  unfold unitStep
  rw [if_neg hw, hc]

theorem unitStep_none (conv : String → String → String → Option Int)
    (vn w u : String) (vc : List Int) (hw : w ≠ "") (hc : conv vn w u = none) :
    unitStep conv vn w u vc = .error (.unknownUnit u w) := by
  unfold unitStep
  rw [if_neg hw, hc]

theorem unitStep_error (conv : String → String → String → Option Int)
    (vn w u : String) (vc : List Int) (e : ExtractError)
    (h : unitStep conv vn w u vc = .error e) : ∃ a b, e = .unknownUnit a b := by
  unfold unitStep at h
  by_cases hw : w = ""
  · rw [if_pos hw] at h
    simp at h
  · rw [if_neg hw] at h
    cases hc : conv vn w u with
    | some c => rw [hc] at h; simp at h
    | none =>
      rw [hc] at h
      simp only [Except.error.injEq] at h
      exact ⟨u, w, h.symm⟩

theorem collectStep_unit (t0 t1 : Int) (attempt : String → String → Option Extracted)
    (s : CollectState) (fname vname : String) :
    (collectStep t0 t1 attempt s fname vname).unit = unitUpd attempt s.unit (fname, vname) := by
  unfold collectStep unitUpd
  cases attempt fname vname with
  | none => rfl
  | some e =>
    dsimp only
    by_cases h : countWindow t0 t1 e.t = 0 <;> simp [h]

theorem foldl_inner_unit (t0 t1 : Int) (attempt : String → String → Option Extracted)
    (fname : String) : ∀ (vs : List String) (s : CollectState),
    (vs.foldl (fun s vname => collectStep t0 t1 attempt s fname vname) s).unit =
      (vs.map (fun v => (fname, v))).foldl (unitUpd attempt) s.unit := by
  intro vs
  induction vs with
  | nil => intro s; rfl
  | cons v vs ih =>
    intro s
    simp only [List.foldl_cons, List.map_cons]
    rw [ih, collectStep_unit]

theorem collect_unit (t0 t1 : Int) (attempt : String → String → Option Extracted)
    (files altvars : List String) :
    (collect t0 t1 attempt files altvars).unit = lastUnitSpec attempt files altvars := by
  suffices h : ∀ (fs : List String) (s : CollectState),
      (fs.foldl (fun s fname =>
        altvars.foldl (fun s vname => collectStep t0 t1 attempt s fname vname) s) s).unit =
      (fs.flatMap (fun f => altvars.map (fun v => (f, v)))).foldl (unitUpd attempt) s.unit by
    exact h files ⟨[], 0, none⟩
  intro fs
  induction fs with
  | nil => intro s; rfl
  | cons f fs ih =>
    intro s
    simp only [List.foldl_cons, List.flatMap_cons]
    rw [List.foldl_append, ih, foldl_inner_unit]

theorem assembleArrays_elim (t0 t1 n : Int) (data : List DataEntry)
    (tc vc : List Int) (mc : List Bool)
    (h : assembleArrays t0 t1 n data = some (tc, vc, mc)) :
    fillSlices n (data.flatMap (tBlock t0 t1)) 0 = some tc ∧
    fillSlices n (data.flatMap (vBlock t0 t1)) 0 = some vc ∧
    fillSlices n (data.flatMap (mBlock t0 t1)) false = some mc ∧
    ¬ data.isEmpty := by
  unfold assembleArrays at h
  by_cases hd : data.isEmpty
  · rw [if_pos hd] at h
    simp at h
  · rw [if_neg hd] at h
    cases h1 : fillSlices n (data.flatMap (tBlock t0 t1)) 0 with
    | none => rw [h1] at h; simp at h
    | some a =>
      rw [h1] at h
      dsimp only at h
      cases h2 : fillSlices n (data.flatMap (vBlock t0 t1)) 0 with
      | none => rw [h2] at h; simp at h
      | some b =>
        rw [h2] at h
        dsimp only at h
        cases h3 : fillSlices n (data.flatMap (mBlock t0 t1)) false with
        | none => rw [h3] at h; simp at h
        | some c =>
          rw [h3] at h
          simp only [Option.some.injEq, Prod.mk.injEq] at h
          obtain ⟨rfl, rfl, rfl⟩ := h
          exact ⟨rfl, rfl, rfl, hd⟩

/-- C7 (counterexample): constructing a `ModelResult` over a directory that
has a land-fraction (`sftlf`) file but no cell-area (`areacella`) file does
not complete: line 43 evaluates `None * self.land_fraction` and raises,
contradicting the claim that construction completes without error for every
choice of present grid files. -/
theorem c7_grid_cex :
    ModelResult.init "p" "m" (0, 0, 0) "" none (some [(1, false)]) = .error .typeError := rfl

/-- C7 (amended): construction completes without error when no grid file,
only the cell-area file, or both grid files are present, leaving every grid
attribute whose backing file is absent null, and computing land areas as
cell-area × land-fraction with the total land area the masked sum; but when
the land-fraction file is present and the cell-area file is absent the
land-area product is formed from a null cell-area and construction fails. -/
theorem c7_grid (path nm : String) (color : Int × Int × Int) (filt : String)
    (a : AreaData) (sf : MaskedCells) :
    (∃ r, ModelResult.init path nm color filt none none = .ok r ∧
      r.cell_areas = none ∧ r.land_fraction = none ∧ r.land_areas = none ∧
      r.land_area = none ∧ r.lat = none ∧ r.lon = none ∧ r.lat_bnds = none ∧
      r.lon_bnds = none) ∧
    (∃ r, ModelResult.init path nm color filt (some a) none = .ok r ∧
      r.cell_areas = some a.areacella ∧ r.lat = some a.lat ∧ r.lon = some a.lon ∧
      r.lat_bnds = some (buildBnds a.lat_bnds) ∧ r.lon_bnds = some (buildBnds a.lon_bnds) ∧
      r.land_fraction = none ∧ r.land_areas = none ∧ r.land_area = none) ∧
    (∃ r, ModelResult.init path nm color filt (some a) (some sf) = .ok r ∧
      r.cell_areas = some a.areacella ∧ r.land_fraction = some sf ∧
      r.land_areas = some (maMul a.areacella sf) ∧
      r.land_area = some (maSum (maMul a.areacella sf))) ∧
    ModelResult.init path nm color filt none (some sf) = .error .typeError := by
  refine ⟨⟨_, rfl, rfl, rfl, rfl, rfl, rfl, rfl, rfl, rfl⟩,
    ⟨_, rfl, rfl, rfl, rfl, rfl, rfl, rfl, rfl, rfl⟩,
    ⟨_, rfl, rfl, rfl, rfl, rfl⟩, rfl⟩

/-- C1 (code bug evaluation): with two adjacent boundary violations the pop
loop first removes the flagged candidate at index 0, which shifts the list,
so the second `data.pop(1)` removes the candidate that had index 2 — not
the flagged candidate at index 1.  The claim-prescribed removal (drop
exactly the flagged candidates) would keep only `[2,10]`, but the code keeps
only `[1,20]`, as both the isolated pop loop and a full
`extractPointTimeSeries`-shaped run show. -/
theorem c1_pop_shift :
    monoFlags overlapSorted = [true, true] ∧
    overlapElim 0 100 [true, true] overlapSorted 6 =
      some ([⟨[1, 20], [3, 4], [false], "v", 2⟩], 2) ∧
    claimOverlapSurvivors [true, true] overlapSorted =
      [⟨[2, 10], [5, 6], [false], "v", 2⟩] ∧
    (seriesComposer exThreeOverlap convNone ["fa", "fb", "fc"] "v" [] 0 100 "").toOption.map
      (fun r => r.1) = some [1, 20] ∧
    ([⟨[1, 20], [3, 4], [false], "v", 2⟩] : List DataEntry) ≠
      [⟨[2, 10], [5, 6], [false], "v", 2⟩] := by
  refine ⟨by decide, by decide, by decide, by decide, by decide⟩

/-- C4 (counterexample): in the spec's two-file scenario the code emits the
two candidates' in-window times block after block — `[0,10,20,15,25,35]` —
not the interleaved `[0,10,15,20,25,35]` the claim states. -/
theorem c4_scenario_cex :
    (seriesComposer exTwoFiles convNone ["f1", "f2"] "temperature" [] 0 35 "").toOption.map
      (fun r => r.1) = some [0, 10, 20, 15, 25, 35] ∧
    some ([0, 10, 20, 15, 25, 35] : List Int) ≠ some [0, 10, 15, 20, 25, 35] := by
  exact ⟨by decide, by decide⟩

/-- C4 (amended): for the two candidates `[0,10,20]` and `[15,25,35]` in the
inclusive window `[0,35]` no overlap removal triggers, and the returned
composite time array is exactly `[0,10,20,15,25,35]` — the candidates'
in-window times concatenated in start-time candidate order, without a
global re-sort of the merged timestamps. -/
theorem c4_scenario :
    seriesComposer exTwoFiles convNone ["f1", "f2"] "temperature" [] 0 35 "" =
      .ok ([0, 10, 20, 15, 25, 35], [1, 2, 3, 4, 5, 6],
        [false, false, false, false, false, false], "K") := by
  decide

/-- C2: when the composer reaches the assembly stage, every surviving
candidate carries the single highest-priority variable name that has a
retained candidate (`firstPresentName`); in particular, if the primary name
has a retained candidate, every surviving candidate carries the primary
name — alternates are never used — and two different names never mix. -/
theorem c2_preference_exclusivity (attempt : String → String → Option Extracted)
    (files : List String) (vn : String) (avs : List String) (t0 t1 : Int)
    (data : List DataEntry) (n : Int) (uopt : Option String)
    (h : composerStage1 attempt files vn avs t0 t1 = .ok (data, n, uopt)) :
    ((∃ d ∈ (collect t0 t1 attempt files (vn :: avs)).data, d.vname = vn) →
      ∀ d ∈ data, d.vname = vn) ∧
    (∀ nm, firstPresentName (vn :: avs) (collect t0 t1 attempt files (vn :: avs)).data = some nm →
      ∀ d ∈ data, d.vname = nm) ∧
    (∀ d1 ∈ data, ∀ d2 ∈ data, d1.vname = d2.vname) := by
  obtain ⟨hmem, -, -, -⟩ := composerStage1_ok attempt files vn avs t0 t1 data n uopt h
  have hname : ∀ nm,
      firstPresentName (vn :: avs) (collect t0 t1 attempt files (vn :: avs)).data = some nm →
      ∀ d ∈ data, d.vname = nm := by
    intro nm hnm d hd
    exact vname_of_mem_thinData _ _ nm d hnm (hmem d hd)
  refine ⟨?_, hname, ?_⟩
  · rintro ⟨d0, hd0, hdvn⟩ d hd
    have hfp : firstPresentName (vn :: avs) (collect t0 t1 attempt files (vn :: avs)).data =
        some vn := by
      apply firstPresentName_primary
      intro hnil
      have hm : d0 ∈ (collect t0 t1 attempt files (vn :: avs)).data.filter
          (fun d => d.vname == vn) :=
        List.mem_filter.2 ⟨hd0, by simp [hdvn]⟩
      rw [hnil] at hm
      simp at hm
    exact hname vn hfp d hd
  · intro d1 hd1 d2 hd2
    have hthin : thinData (vn :: avs) (collect t0 t1 attempt files (vn :: avs)).data ≠ [] := by
      intro hnil
      have := hmem d1 hd1
      rw [hnil] at this
      simp at this
    cases hfp : firstPresentName (vn :: avs) (collect t0 t1 attempt files (vn :: avs)).data with
    | none =>
      exfalso
      apply hthin
      rw [thinData_eq, hfp]
    | some nm => rw [hname nm hfp d1 hd1, hname nm hfp d2 hd2]

/-- C3: either extraction routine raises `VarNotInModel` exactly when the
running total of in-window point counts over all scanned candidates is
zero; if the total is nonzero, the defensive re-check after preference
filtering can never fire, so the error is raised only by the first check —
and since the error is an `Except.error`, no composite accompanies it. -/
theorem c3_existence_check (attempt : String → String → Option Extracted)
    (conv : String → String → String → Option Int) (files : List String)
    (vn : String) (avs : List String) (t0 t1 : Int) (w : String) :
    ((∃ msg, seriesComposer attempt conv files vn avs t0 t1 w = .error (.varNotInModel msg)) ↔
      (collect t0 t1 attempt files (vn :: avs)).ntimes = 0) ∧
    ((collect t0 t1 attempt files (vn :: avs)).ntimes ≠ 0 →
      sumNts (thinData (vn :: avs) (collect t0 t1 attempt files (vn :: avs)).data) ≠ 0) := by
  refine ⟨⟨?_, ?_⟩, secondCheck_pos attempt files vn avs t0 t1⟩
  · rintro ⟨msg, h⟩
    simp only [seriesComposer] at h
    cases hst : composerStage1 attempt files vn avs t0 t1 with
    | error e =>
      rw [hst] at h
      dsimp only at h
      simp only [Except.error.injEq] at h
      subst h
      exact (composerStage1_vnim attempt files vn avs t0 t1).1 ⟨msg, hst⟩
    | ok trip =>
      obtain ⟨data, n, uopt⟩ := trip
      rw [hst] at h
      dsimp only at h
      cases ha : assembleArrays t0 t1 n data with
      | none => rw [ha] at h; simp at h
      | some o =>
        obtain ⟨tc, vc, mc⟩ := o
        rw [ha] at h
        dsimp only at h
        cases hu : unitStep conv vn w (uopt.getD "") vc with
        | error e =>
          rw [hu] at h
          simp only [Except.error.injEq] at h
          obtain ⟨a, b, rfl⟩ := unitStep_error conv vn w (uopt.getD "") vc e hu
          simp at h
        | ok r =>
          obtain ⟨vc2, u2⟩ := r
          rw [hu] at h
          simp at h
  · intro h0
    obtain ⟨msg, hmsg⟩ := (composerStage1_vnim attempt files vn avs t0 t1).2 h0
    refine ⟨msg, ?_⟩
    simp only [seriesComposer]
    rw [hmsg]

/-- C5: every timestamp of a successfully returned composite lies inside
the inclusive window, and the composite time array is exactly the
concatenation of the surviving candidates' in-window timestamps, so its
length equals the final running total of in-window counts of the surviving
candidates (no zero padding is ever exposed). -/
theorem c5_window_filtering (attempt : String → String → Option Extracted)
    (conv : String → String → String → Option Int) (files : List String)
    (vn : String) (avs : List String) (t0 t1 : Int) (w : String)
    (tc vc : List Int) (mc : List Bool) (u : String)
    (h : seriesComposer attempt conv files vn avs t0 t1 w = .ok (tc, vc, mc, u)) :
    (∀ x ∈ tc, t0 ≤ x ∧ x ≤ t1) ∧
    (∀ data n uopt, composerStage1 attempt files vn avs t0 t1 = .ok (data, n, uopt) →
      tc = data.flatMap (tBlock t0 t1) ∧ (tc.length : Int) = n ∧ n = sumCw t0 t1 data) := by
  obtain ⟨data, n, uopt, tc', vc', mc', vc2, u2, hst, ha, hu, hout⟩ :=
    seriesComposer_ok_elim attempt conv files vn avs t0 t1 w (tc, vc, mc, u) h
  simp only [Prod.mk.injEq] at hout
  obtain ⟨rfl, -, -, -⟩ := hout
  obtain ⟨-, hncw, -, -⟩ := composerStage1_ok attempt files vn avs t0 t1 data n uopt hst
  obtain ⟨hft, -, -, -⟩ := assembleArrays_elim t0 t1 n data tc vc' mc' ha
  have hlen : ((data.flatMap (tBlock t0 t1)).length : Int) = n := by
    rw [length_tBlocks t0 t1 data, hncw]
  have htc : tc = data.flatMap (tBlock t0 t1) := by
    have := fillSlices_exact n (data.flatMap (tBlock t0 t1)) 0 hlen
    rw [this] at hft
    exact (Option.some.injEq _ _ ▸ hft).symm
  constructor
  · intro x hx
    rw [htc] at hx
    exact mem_tBlocks_window t0 t1 data x hx
  · intro data2 n2 uopt2 hst2
    rw [hst] at hst2
    simp only [Except.ok.injEq, Prod.mk.injEq] at hst2
    obtain ⟨rfl, rfl, rfl⟩ := hst2
    refine ⟨htc, ?_, hncw⟩
    rw [htc, hlen]

/-- C6: whenever a non-empty output unit is requested that differs from the
extracted unit, the returned composite is the unconverted composite with
every value multiplied by the factor registered for
`(variable, output unit, extracted unit)`; when no factor is registered the
routine raises `UnknownUnit` naming both units and returns nothing. -/
theorem c6_unit_conversion (attempt : String → String → Option Extracted)
    (conv : String → String → String → Option Int) (files : List String)
    (vn : String) (avs : List String) (t0 t1 : Int) (w : String)
    (tc vc : List Int) (mc : List Bool) (u : String) (hw : w ≠ "")
    (hdiff : w ≠ u)
    (h : seriesComposer attempt conv files vn avs t0 t1 "" = .ok (tc, vc, mc, u)) :
    (∀ c, conv vn w u = some c →
      seriesComposer attempt conv files vn avs t0 t1 w =
        .ok (tc, vc.map (fun x => x * c), mc, w)) ∧
    (conv vn w u = none →
      seriesComposer attempt conv files vn avs t0 t1 w = .error (.unknownUnit u w)) := by
  obtain ⟨data, n, uopt, tc', vc', mc', vc2, u2, hst, ha, hu, hout⟩ :=
    seriesComposer_ok_elim attempt conv files vn avs t0 t1 "" (tc, vc, mc, u) h
  rw [unitStep_empty] at hu
  simp only [Except.ok.injEq, Prod.mk.injEq] at hu
  obtain ⟨rfl, rfl⟩ := hu
  simp only [Prod.mk.injEq] at hout
  obtain ⟨rfl, rfl, rfl, rfl⟩ := hout
  have hbuild := seriesComposer_build attempt conv files vn avs t0 t1 w data n uopt
    tc vc mc hst ha
  constructor
  · intro c hc
    rw [hbuild, unitStep_some conv vn w (uopt.getD "") vc c hw hc]
  · intro hc
    rw [hbuild, unitStep_none conv vn w (uopt.getD "") vc hw hc]

/-- C9: the `unit` local that either routine returns (and feeds to the
conversion lookup as the extracted unit) is the unit of the chronologically
last successful extractor call of the file/name scan — whether or not that
candidate survives preference filtering or overlap elimination, and even if
its in-window count was zero. -/
theorem c9_unit_provenance (attempt : String → String → Option Extracted)
    (conv : String → String → String → Option Int) (files : List String)
    (vn : String) (avs : List String) (t0 t1 : Int) :
    (collect t0 t1 attempt files (vn :: avs)).unit = lastUnitSpec attempt files (vn :: avs) ∧
    (∀ tc vc mc u, seriesComposer attempt conv files vn avs t0 t1 "" = .ok (tc, vc, mc, u) →
      some u = lastUnitSpec attempt files (vn :: avs)) := by
  refine ⟨collect_unit t0 t1 attempt files (vn :: avs), ?_⟩
  intro tc vc mc u h
  obtain ⟨data, n, uopt, tc', vc', mc', vc2, u2, hst, ha, hu, hout⟩ :=
    seriesComposer_ok_elim attempt conv files vn avs t0 t1 "" (tc, vc, mc, u) h
  obtain ⟨-, -, huopt, hsome⟩ := composerStage1_ok attempt files vn avs t0 t1 data n uopt hst
  rw [unitStep_empty] at hu
  simp only [Except.ok.injEq, Prod.mk.injEq] at hu
  obtain ⟨rfl, rfl⟩ := hu
  simp only [Prod.mk.injEq] at hout
  obtain ⟨-, -, -, rfl⟩ := hout
  rw [← collect_unit t0 t1 attempt files (vn :: avs), ← huopt]
  cases uopt with
  | none => simp at hsome
  | some x => rfl

/-- C8: `extractPointTimeSeries` and `extractTimeSeries` are the same
composer over their respective extraction primitives: whenever the field
extractor returns the same `(t, var, unit)` tuple as the point extractor
for every file and candidate name, the two routines return identical
composite time, value, mask and unit results. -/
theorem c8_entry_point_equivalence (glob : String → String → List String)
    (extPt : String → String → Int → Int → Option Extracted)
    (extF : String → String → Option (Extracted × Int × Int))
    (conv : String → String → String → Option Int) (m : ModelResult)
    (vn : String) (lat lon : Int) (avs : List String) (t0 t1 : Int) (w : String)
    (h : ∀ f v, (extF f v).map (fun r => r.1) = extPt f v lat lon) :
    extractTimeSeries glob extF conv m vn avs t0 t1 w =
      extractPointTimeSeries glob extPt conv m vn lat lon avs t0 t1 w := by
  unfold extractTimeSeries extractPointTimeSeries
  have hfun : (fun fname vname => (extF fname vname).map (fun r => r.1)) =
      (fun fname vname => extPt fname vname lat lon) :=
    funext fun f => funext fun v => h f v
  rw [hfun]

/-- C10: neither extraction routine writes any attribute of the facade —
the post-state facade is the argument facade — and the caller's `alt_vars`
list is copied on line 100/211 before the primary name is prepended, so the
list behind the caller's reference is unchanged while the local `altvars`
holds the primary name consed onto a copy at a fresh reference. -/
theorem c10_frame (glob : String → String → List String)
    (extPt : String → String → Int → Int → Option Extracted)
    (extF : String → String → Option (Extracted × Int × Int))
    (conv : String → String → String → Option Int) (m : ModelResult)
    (vn : String) (lat lon : Int) (avs : List String) (t0 t1 : Int) (w : String)
    (s : ListStore) (r : Nat) (hr : r < s.length) :
    (extractPointTimeSeriesS glob extPt conv m vn lat lon avs t0 t1 w).2 = m ∧
    (extractTimeSeriesS glob extF conv m vn avs t0 t1 w).2 = m ∧
    storeGet (altvarsSetup s r vn).1 r = storeGet s r ∧
    storeGet (altvarsSetup s r vn).1 (altvarsSetup s r vn).2 = vn :: storeGet s r ∧
    (altvarsSetup s r vn).2 ≠ r := by
  refine ⟨rfl, rfl, ?_, ?_, ?_⟩
  · unfold altvarsSetup storeAlloc storeInsert0 storeGet
    dsimp only
    rw [List.getD_eq_getElem?_getD, List.getD_eq_getElem?_getD,
      List.getElem?_set_ne (by omega), List.getElem?_append_left hr]
  · unfold altvarsSetup storeAlloc storeInsert0 storeGet
    dsimp only
    rw [List.getD_eq_getElem?_getD,
      List.getElem?_set_self (by simp), Option.getD_some,
      List.getD_eq_getElem?_getD, List.getElem?_concat_length, Option.getD_some,
      List.getD_eq_getElem?_getD]
  · unfold altvarsSetup storeAlloc
    dsimp only
    omega

/-- Witness for C2 at the two-file scenario. -/
theorem c2_preference_exclusivity_w :
    ((∃ d ∈ (collect 0 35 exTwoFiles ["f1", "f2"] ("temperature" :: [])).data,
        d.vname = "temperature") → ∀ d ∈ c2Data, d.vname = "temperature") ∧
    (∀ nm, firstPresentName ("temperature" :: [])
        (collect 0 35 exTwoFiles ["f1", "f2"] ("temperature" :: [])).data = some nm →
      ∀ d ∈ c2Data, d.vname = nm) ∧
    (∀ d1 ∈ c2Data, ∀ d2 ∈ c2Data, d1.vname = d2.vname) :=
  c2_preference_exclusivity exTwoFiles ["f1", "f2"] "temperature" [] 0 35 c2Data 6
    (some "K") (by rfl)

/-- Witness for C3 at the two-file scenario. -/
theorem c3_existence_check_w :
    ((∃ msg, seriesComposer exTwoFiles convNone ["f1", "f2"] "temperature" [] 0 35 "" =
        .error (.varNotInModel msg)) ↔
      (collect 0 35 exTwoFiles ["f1", "f2"] ("temperature" :: [])).ntimes = 0) ∧
    ((collect 0 35 exTwoFiles ["f1", "f2"] ("temperature" :: [])).ntimes ≠ 0 →
      sumNts (thinData ("temperature" :: [])
        (collect 0 35 exTwoFiles ["f1", "f2"] ("temperature" :: [])).data) ≠ 0) :=
  c3_existence_check exTwoFiles convNone ["f1", "f2"] "temperature" [] 0 35 ""

/-- Witness for C5 at the two-file scenario. -/
theorem c5_window_filtering_w :
    (∀ x ∈ ([0, 10, 20, 15, 25, 35] : List Int), (0 : Int) ≤ x ∧ x ≤ 35) ∧
    (∀ data n uopt,
      composerStage1 exTwoFiles ["f1", "f2"] "temperature" [] 0 35 = .ok (data, n, uopt) →
      ([0, 10, 20, 15, 25, 35] : List Int) = data.flatMap (tBlock 0 35) ∧
      (([0, 10, 20, 15, 25, 35] : List Int).length : Int) = n ∧ n = sumCw 0 35 data) :=
  c5_window_filtering exTwoFiles convNone ["f1", "f2"] "temperature" [] 0 35 ""
    [0, 10, 20, 15, 25, 35] [1, 2, 3, 4, 5, 6]
    [false, false, false, false, false, false] "K" (by rfl)

/-- Witness for C6 at the registered-factor scenario: the conversion from
`kg m-2 s-1` to `mm/day` with factor 86400 scales the values by exactly
86400. -/
theorem c6_unit_conversion_w :
    (∀ c, conv86400 "pr" "mm/day" "kg m-2 s-1" = some c →
      seriesComposer exConvKg conv86400 ["g1"] "pr" [] 0 100 "mm/day" =
        .ok ([0, 1], [5, 7].map (fun x => x * c), [false, false], "mm/day")) ∧
    (conv86400 "pr" "mm/day" "kg m-2 s-1" = none →
      seriesComposer exConvKg conv86400 ["g1"] "pr" [] 0 100 "mm/day" =
        .error (.unknownUnit "kg m-2 s-1" "mm/day")) :=
  c6_unit_conversion exConvKg conv86400 ["g1"] "pr" [] 0 100 "mm/day"
    [0, 1] [5, 7] [false, false] "kg m-2 s-1" (by decide) (by decide) (by rfl)

/-- Witness for C8: with the field extractor projecting to the point
extractor, the two routines coincide on the two-file scenario. -/
theorem c8_entry_point_equivalence_w :
    extractTimeSeries globW extFW convNone mW "temperature" [] 0 35 "" =
      extractPointTimeSeries globW extPtW convNone mW "temperature" 0 0 [] 0 35 "" :=
  c8_entry_point_equivalence globW extPtW extFW convNone mW "temperature" 0 0 [] 0 35 ""
    (fun f v => by unfold extFW extPtW; cases exTwoFiles f v <;> rfl)

/-- Witness for C9: in the provenance scenario the returned unit is `uA`,
the unit of the last successful extraction — an out-of-window alternate that
contributes nothing to the composite. -/
theorem c9_unit_provenance_w :
    some "uA" = lastUnitSpec exUnitProv ["f1", "f2"] ("P" :: ["A"]) :=
  (c9_unit_provenance exUnitProv convNone ["f1", "f2"] "P" ["A"] 0 100).2
    [0, 10] [1, 2] [false, false] "uA" (by rfl)

/-- Witness for C10 at a singleton store. -/
theorem c10_frame_w :
    (extractPointTimeSeriesS globW extPtW convNone mW "temperature" 0 0 [] 0 35 "").2 = mW ∧
    (extractTimeSeriesS globW extFW convNone mW "temperature" [] 0 35 "").2 = mW ∧
    storeGet (altvarsSetup [["a"]] 0 "temperature").1 0 = storeGet [["a"]] 0 ∧
    storeGet (altvarsSetup [["a"]] 0 "temperature").1 (altvarsSetup [["a"]] 0 "temperature").2 =
      "temperature" :: storeGet [["a"]] 0 ∧
    (altvarsSetup [["a"]] 0 "temperature").2 ≠ 0 :=
  c10_frame globW extPtW extFW convNone mW "temperature" 0 0 [] 0 35 "" [["a"]] 0 (by decide)

